import Mathlib

/-!
Verification development for the anon-chatbot repository.

The source consists of bot.py (the live Telegram bot, with its own inline
database logic over the sqlite table `users`, matchmaking, the search
timeout and the AI inactivity timers) and database.py (a standalone
database module over the same schema, with the flag column named `looking`
instead of `is_searching`).  Both keep one row per user:
`user_id INTEGER PRIMARY KEY`, `partner_id INTEGER` (NULL when unpaired,
-1 = AI_PARTNER_ID when paired with the AI) and an integer searching flag
with default 0.

The table is embedded as an association list in rowid (insertion) order:
`SELECT ... LIMIT 1` without ORDER BY scans in that order, `UPDATE ...
WHERE user_id = x` rewrites every row whose key is x, and
`INSERT OR IGNORE` appends a row with the schema defaults when the key is
absent.  The in-memory `ai_chat_sessions` dict is abstracted to the list
of user ids holding a live session; outbound Telegram messages appear as
explicit result fields, since they touch no table row.
-/

namespace AnonChat

/-- Telegram user ids: opaque integer handles. -/
abbrev UserId := Int

/-- bot.py line 31: `AI_PARTNER_ID = -1`. -/
def AI_PARTNER_ID : UserId := -1

/-- One row of the `users` table: `partner_id` (NULL, a user id, or the AI
sentinel) and the searching flag (`is_searching` in bot.py, `looking` in
database.py), stored as 0/1 and read back as a boolean. -/
structure Row where
  partner_id : Option UserId
  searching : Bool
deriving DecidableEq, Repr

/-- Schema defaults for a fresh row: `partner_id` NULL, flag 0. -/
def freshRow : Row := ⟨none, false⟩

/-- The `users` table in rowid order. -/
abbrev Db := List (UserId × Row)

/-- The `user_id` column in table order. -/
def keys (db : Db) : List UserId := db.map Prod.fst

/-- `SELECT * FROM users WHERE user_id = uid`: first row with that key. -/
def getRow : Db → UserId → Option Row
  | [], _ => none
  | e :: tl, uid => if e.1 = uid then some e.2 else getRow tl uid

/-- `UPDATE users SET ... WHERE user_id = uid`, with `f` the per-row change. -/
def updateRow : Db → UserId → (Row → Row) → Db
  | [], _, _ => []
  | e :: tl, uid, f => (if e.1 = uid then (e.1, f e.2) else e) :: updateRow tl uid f

/-- `INSERT OR IGNORE INTO users (user_id) VALUES (uid)`. -/
def insertOrIgnore (db : Db) (uid : UserId) : Db :=
  if (getRow db uid).isSome then db else db ++ [(uid, freshRow)]

/-- bot.py `init_db`: after `CREATE TABLE IF NOT EXISTS`, runs
`UPDATE users SET partner_id = NULL, is_searching = 0` over the whole
table on every process start. -/
def init_db (db : Db) : Db := db.map (fun e => (e.1, freshRow))

/-- bot.py `set_user_searching`: INSERT OR IGNORE, then
`UPDATE users SET is_searching = ? WHERE user_id = ?` (`partner_id` is not
touched by this statement). -/
def set_user_searching (db : Db) (uid : UserId) (flag : Bool) : Db :=
  updateRow (insertOrIgnore db uid) uid (fun r => ⟨r.partner_id, flag⟩)

/-- database.py `set_user_looking`: INSERT OR IGNORE, then
`UPDATE users SET looking = ?, partner_id = NULL WHERE user_id = ?`. -/
def set_user_looking (db : Db) (uid : UserId) (looking : Bool) : Db :=
  updateRow (insertOrIgnore db uid) uid (fun _ => ⟨none, looking⟩)

/-- The candidate SELECT shared by bot.py `find_and_match_users` and
database.py `find_and_create_match`:
`SELECT user_id FROM users WHERE is_searching = 1 AND partner_id IS NULL
AND user_id != ? LIMIT 1` (first match in table order). -/
def fmu_select : Db → UserId → Option UserId
  | [], _ => none
  | e :: tl, uid =>
    if e.2.searching = true ∧ e.2.partner_id = none ∧ e.1 ≠ uid then some e.1
    else fmu_select tl uid

/-- The two UPDATE statements of bot.py `find_and_match_users`, committed
together: the requester gets `partner_id = c, is_searching = 0` and the
candidate `c` gets `partner_id = requester, is_searching = 0`. -/
def fmu_commit (db : Db) (uid c : UserId) : Db :=
  updateRow (updateRow db uid (fun _ => ⟨some c, false⟩)) c (fun _ => ⟨some uid, false⟩)

/-- bot.py `find_and_match_users`: SELECT a waiting candidate; if one is
found, write both rows and return True, else return False with no write.
(The Telegram notifications and search-task cancellations that follow the
commit touch no table row.)  The coroutine awaits between the SELECT and
the UPDATEs; `fmu_select` and `fmu_commit` expose that interleaving point. -/
def find_and_match_users (db : Db) (uid : UserId) : Bool × Db :=
  match fmu_select db uid with
  | some c => (true, fmu_commit db uid c)
  | none => (false, db)

/-- The in-memory `ai_chat_sessions` map, abstracted to the set of user
ids holding a live dialogue handle (the handle itself is external). -/
abbrev Sessions := List UserId

/-- `ai_chat_sessions[user_id] = gemini_model.start_chat(history=[])`:
make sure `uid` holds a session. -/
def ensure_session (sessions : Sessions) (uid : UserId) : Sessions :=
  if uid ∈ sessions then sessions else uid :: sessions

/-- Observable result of bot.py `disconnect_user`: the table, the session
map, and the partner that was sent the partner-has-left notification, if
any.  The Python function itself returns None. -/
structure DisconnectResult where
  db : Db
  sessions : Sessions
  notified : Option UserId
deriving DecidableEq, Repr

/-- bot.py `disconnect_user`: read the partner_id, clear the own row; if
the partner is the AI sentinel, drop the session (no sentinel row is
touched); elif partner_id is truthy (not NULL and not 0), clear the
partner row in the same transaction and, when `notify_user`, send the
partner-left message.  The timer cancellations touch no table row. -/
def disconnect_user (db : Db) (sessions : Sessions) (uid : UserId) (notify_user : Bool) :
    DisconnectResult :=
  let p := (getRow db uid).bind Row.partner_id
  let db1 := updateRow db uid (fun _ => freshRow)
  match p with
  | some pid =>
    if pid = AI_PARTNER_ID then ⟨db1, sessions.erase uid, none⟩
    else if pid ≠ 0 then
      ⟨updateRow db1 pid (fun _ => freshRow), sessions, if notify_user then some pid else none⟩
    else ⟨db1, sessions, none⟩
  | none => ⟨db1, sessions, none⟩

/-- bot.py `match_with_ai`: `UPDATE users SET partner_id = -1,
is_searching = 0 WHERE user_id = ?`, then install a fresh AI session.  The
connected message, the scripted opener and the inactivity scheduling are
side effects outside the table. -/
def match_with_ai (db : Db) (sessions : Sessions) (uid : UserId) : Db × Sessions :=
  (updateRow db uid (fun _ => ⟨some AI_PARTNER_ID, false⟩), ensure_session sessions uid)

/-- The body of bot.py `search_task` after its sleep: re-read
`is_searching` and run `match_with_ai` only if the user is still
searching (`if result and result[0]`).  The Bool records whether
`match_with_ai` ran, hence whether anything was sent. -/
def search_task_fire (db : Db) (sessions : Sessions) (uid : UserId) : Db × Sessions × Bool :=
  match getRow db uid with
  | some r =>
    if r.searching then
      let m := match_with_ai db sessions uid
      (m.1, m.2, true)
    else (db, sessions, false)
  | none => (db, sessions, false)

/-- bot.py `is_still_connected_to_ai`: the row exists and its partner_id
equals the AI sentinel. -/
def is_still_connected_to_ai (db : Db) (uid : UserId) : Bool :=
  match getRow db uid with
  | some r => r.partner_id == some AI_PARTNER_ID
  | none => false

/-- Messages the inactivity checker can send: the two nudges and the
final looks-like-you-are-busy message. -/
inductive InactMsg where
  | nudge1
  | nudge2
  | timeoutMsg
deriving DecidableEq, Repr

/-- Result of one run of the inactivity checker: the messages sent,
tagged with their offset in seconds from scheduling time, and the final
table and session map. -/
structure InactRun where
  events : List (Nat × InactMsg)
  db : Db
  sessions : Sessions
deriving DecidableEq, Repr

/-- Successive sleep durations of bot.py `inactivity_checker`:
`asyncio.sleep(60)`, `asyncio.sleep(240)`, `asyncio.sleep(300)`. -/
def inactivity_sleeps : List Nat := [60, 240, 300]

/-- Cumulative sums of a list of durations: the offsets, from scheduling
time, at which the successive stages fire. -/
def cumulative_offsets : List Nat → Nat → List Nat
  | [], _ => []
  | d :: ds, acc => (acc + d) :: cumulative_offsets ds (acc + d)

/-- The offset of each inactivity stage from scheduling time. -/
def inactivity_offsets : List Nat := cumulative_offsets inactivity_sleeps 0

/-- bot.py `inactivity_checker`: sleep 60, and if still connected to the
AI send nudge 1 (only if a session exists, `if chat:`), else return;
sleep 240 more, same for nudge 2; sleep 300 more, and if still connected
send the final message and run `disconnect_user(uid, notify_user=False)`.
The parameters `db1 db2 db3` are the table as read at each of the three
wake-ups (the checker re-reads state before every action); the session map
is read as of each stage and nothing in the checker changes it before the
final disconnect. -/
def inactivity_checker (db1 db2 db3 : Db) (sessions : Sessions) (uid : UserId) : InactRun :=
  let t1 : Nat := 60
  let t2 : Nat := 60 + 240
  let t3 : Nat := 60 + 240 + 300
  if is_still_connected_to_ai db1 uid then
    let e1 : List (Nat × InactMsg) := if uid ∈ sessions then [(t1, InactMsg.nudge1)] else []
    if is_still_connected_to_ai db2 uid then
      let e2 : List (Nat × InactMsg) := if uid ∈ sessions then [(t2, InactMsg.nudge2)] else []
      if is_still_connected_to_ai db3 uid then
        let d := disconnect_user db3 sessions uid false
        ⟨e1 ++ e2 ++ [(t3, InactMsg.timeoutMsg)], d.db, d.sessions⟩
      else ⟨e1 ++ e2, db3, sessions⟩
    else ⟨e1, db3, sessions⟩
  else ⟨[], db3, sessions⟩

/-- What bot.py `forward_message` does with an incoming message, decided
from the partner_id it reads: `if partner_id and partner_id !=
AI_PARTNER_ID` relay to the human partner; `elif partner_id ==
AI_PARTNER_ID` take the AI branch; else send the not-connected reply. -/
inductive FwdRoute where
  | relayHuman (pid : UserId)
  | aiReply
  | notConnected
deriving DecidableEq, Repr

/-- The routing decision of bot.py `forward_message`. -/
def forward_message_route (db : Db) (uid : UserId) : FwdRoute :=
  match (getRow db uid).bind Row.partner_id with
  | some pid =>
    if pid ≠ 0 ∧ pid ≠ AI_PARTNER_ID then FwdRoute.relayHuman pid
    else if pid = AI_PARTNER_ID then FwdRoute.aiReply
    else FwdRoute.notConnected
  | none => FwdRoute.notConnected

/-- bot.py forward_message AI branch: `base_delay = 1.5`. -/
def base_delay : ℚ := 3 / 2

/-- bot.py forward_message AI branch: `delay_per_char = 0.05`. -/
def delay_per_char : ℚ := 5 / 100

/-- Lower bound of `random.uniform(0, 1.5)`. -/
def jitter_lo : ℚ := 0

/-- Upper bound of `random.uniform(0, 1.5)`. -/
def jitter_hi : ℚ := 3 / 2

/-- bot.py forward_message AI branch: the cap in `min(dynamic_delay, 10.0)`. -/
def delay_cap : ℚ := 10

/-- `dynamic_delay = base_delay + (text_length * delay_per_char) +
random.uniform(0, 1.5)`, with the jitter draw as a parameter. -/
def dynamic_delay (text_length : Nat) (jitter : ℚ) : ℚ :=
  base_delay + (text_length : ℚ) * delay_per_char + jitter

/-- `final_delay = min(dynamic_delay, 10.0)`. -/
def final_delay (text_length : Nat) (jitter : ℚ) : ℚ :=
  min (dynamic_delay text_length jitter) delay_cap

/-- Python values as they cross the sqlite parameter interface: None, an
integer, or a whole row tuple. -/
inductive PyVal where
  | vnone
  | vint (i : Int)
  | vtuple (elems : List PyVal)

/-- Python truthiness for these values: None and 0 are falsy, a tuple is
truthy iff nonempty. -/
def pyTruthy : PyVal → Bool
  | PyVal.vnone => false
  | PyVal.vint i => i != 0
  | PyVal.vtuple es => !es.isEmpty

/-- The error sqlite3 raises when a parameter is not a scalar. -/
def interfaceError : String :=
  "InterfaceError: Error binding parameter - probably unsupported type."

/-- sqlite3 parameter binding: None and integers bind, a tuple raises
InterfaceError. -/
def bindParam : PyVal → Except String (Option Int)
  | PyVal.vnone => Except.ok none
  | PyVal.vint i => Except.ok (some i)
  | PyVal.vtuple _ => Except.error interfaceError

/-- database.py `find_and_create_match`.  `fetchone` yields the 1-tuple
`(candidate,)`; the code sets `partner_id = row` (the tuple itself, not
`row[0]`) and passes it as the first parameter of the first UPDATE and as
a parameter of the second, so the execute raises InterfaceError whenever a
candidate exists; with no candidate it returns None without writing. -/
def find_and_create_match (db : Db) (uid : UserId) : Except String (Option PyVal × Db) :=
  match fmu_select db uid with
  | some c =>
    let row := PyVal.vtuple [PyVal.vint c]
    if pyTruthy row then
      match bindParam row with
      | Except.error e => Except.error e
      | Except.ok p =>
        let db1 := updateRow db uid (fun _ => ⟨p, false⟩)
        match bindParam row with
        | Except.error e => Except.error e
        | Except.ok w =>
          let db2 := match w with
            | some wv => updateRow db1 wv (fun _ => ⟨some uid, false⟩)
            | none => db1
          Except.ok (some row, db2)
    else Except.ok (none, db)
  | none => Except.ok (none, db)

/-- database.py `disconnect_pair`.  `fetchone` yields the 1-tuple
`(partner_id,)`, which is truthy even when partner_id is NULL, so `if row
and row:` takes the then branch for every existing user; there the code
sets `partner_id = row` (the whole tuple) and binds it as the second
parameter of `UPDATE ... WHERE user_id IN (?,?)`, raising InterfaceError.
Only a missing user row reaches the else branch, which clears just that
(nonexistent) row and returns the initial None. -/
def disconnect_pair (db : Db) (uid : UserId) : Except String (Db × Option PyVal) :=
  match getRow db uid with
  | some r =>
    let row := PyVal.vtuple [match r.partner_id with
      | some p => PyVal.vint p
      | none => PyVal.vnone]
    if pyTruthy row && pyTruthy row then
      match bindParam (PyVal.vint uid) with
      | Except.error e => Except.error e
      | Except.ok _ =>
        match bindParam row with
        | Except.error e => Except.error e
        | Except.ok w =>
          let db1 := updateRow db uid (fun _ => ⟨none, false⟩)
          let db2 := match w with
            | some wv => updateRow db1 wv (fun _ => ⟨none, false⟩)
            | none => db1
          Except.ok (db2, some row)
    else Except.ok (updateRow db uid (fun _ => ⟨none, false⟩), none)
  | none => Except.ok (updateRow db uid (fun _ => ⟨none, false⟩), none)

/-- Symmetric-pairing condition for one row, relative to a table: if the
row of user `a` names a real partner `b` (not the AI sentinel, not `a`
itself), then `a` is not searching and the row of `b` exists, names `a`
back, and is not searching either. -/
def rowOk (db : Db) (a : UserId) (ra : Row) : Bool :=
  match ra.partner_id with
  | none => true
  | some b =>
    if b = AI_PARTNER_ID then true
    else if a = b then true
    else
      ra.searching == false &&
      match getRow db b with
      | some rb => rb.partner_id == some a && rb.searching == false
      | none => false

/-- The human-human pairing invariant over the whole table. -/
def PairInv (db : Db) : Prop := ∀ e ∈ db, rowOk db e.1 e.2 = true

/-- The `user_id` column is a primary key: keys are distinct. -/
def KeysNodup (db : Db) : Prop := (keys db).Nodup

/-- Rows exist only for Telegram user ids, which are positive; in
particular no row carries the AI sentinel -1 or the id 0 as its key. -/
def ValidKeys (db : Db) : Prop := ∀ e ∈ db, 0 < e.1

/-- The state-space invariant of the store. -/
def StoreInv (db : Db) : Prop := KeysNodup db ∧ ValidKeys db ∧ PairInv db

/-- No row of the table names `uid` as its partner. -/
def NoPointer (db : Db) (uid : UserId) : Prop := ∀ e ∈ db, e.2.partner_id ≠ some uid

instance (db : Db) : Decidable (PairInv db) := by unfold PairInv; infer_instance

instance (db : Db) : Decidable (KeysNodup db) := by unfold KeysNodup; infer_instance

instance (db : Db) : Decidable (ValidKeys db) := by unfold ValidKeys; infer_instance

instance (db : Db) : Decidable (StoreInv db) := by unfold StoreInv; infer_instance

instance (db : Db) (uid : UserId) : Decidable (NoPointer db uid) := by
  unfold NoPointer; infer_instance

/-! Basic lemmas about the table operations. -/

theorem getRow_updateRow (db : Db) (k : UserId) (f : Row → Row) (j : UserId) :
    getRow (updateRow db k f) j = if j = k then (getRow db j).map f else getRow db j := by
  induction db with
  | nil => simp [getRow, updateRow]
  | cons e tl ih =>
    by_cases hek : e.1 = k
    · by_cases hej : e.1 = j
      · have hjk : j = k := hej.symm.trans hek
        simp [getRow, updateRow, hek, hej, hjk]
      · have hkj : ¬ k = j := fun h => hej (hek.trans h)
        simp [getRow, updateRow, hek, hej, hkj, ih]
    · by_cases hej : e.1 = j
      · have hjk : ¬ j = k := fun h => hek (hej.trans h)
        simp [getRow, updateRow, hek, hej, hjk]
      · simp [getRow, updateRow, hek, hej, ih]

theorem updateRow_eq_map (db : Db) (k : UserId) (f : Row → Row) :
    updateRow db k f = db.map (fun e => if e.1 = k then (e.1, f e.2) else e) := by
  induction db with
  | nil => rfl
  | cons e tl ih => simp [updateRow, ih]

theorem mem_updateRow {db : Db} {k : UserId} {f : Row → Row} {e : UserId × Row}
    (he : e ∈ updateRow db k f) :
    ∃ e0, e0 ∈ db ∧ e = if e0.1 = k then (e0.1, f e0.2) else e0 := by
  rw [updateRow_eq_map] at he
  obtain ⟨e0, he0, hmap⟩ := List.mem_map.mp he
  exact ⟨e0, he0, hmap.symm⟩

theorem keys_updateRow (db : Db) (k : UserId) (f : Row → Row) :
    keys (updateRow db k f) = keys db := by
  induction db with
  | nil => rfl
  | cons e tl ih =>
    by_cases hek : e.1 = k <;> simp [updateRow, keys, hek] <;>
      simpa [keys] using ih

theorem getRow_eq_none_iff {db : Db} {k : UserId} : getRow db k = none ↔ k ∉ keys db := by
  induction db with
  | nil => simp [getRow, keys]
  | cons e tl ih =>
    by_cases hek : e.1 = k
    · simp [getRow, keys, hek]
    · have hke : ¬ k = e.1 := fun h => hek h.symm
      simp [getRow, keys, hek, hke, ih]

theorem getRow_mem : ∀ {db : Db} {a : UserId} {r : Row},
    getRow db a = some r → (a, r) ∈ db := by
  intro db
  induction db with
  | nil => intro a r h; simp [getRow] at h
  | cons e tl ih =>
    intro a r h
    obtain ⟨k0, r0⟩ := e
    by_cases hea : k0 = a
    · subst hea
      simp [getRow] at h
      subst h
      exact List.mem_cons_self _ _
    · simp [getRow, hea] at h
      exact List.mem_cons_of_mem _ (ih h)

theorem mem_getRow : ∀ {db : Db}, KeysNodup db → ∀ {a : UserId} {r : Row},
    (a, r) ∈ db → getRow db a = some r := by
  intro db
  induction db with
  | nil => intro _ a r hm; simp at hm
  | cons e tl ih =>
    intro hnd a r hm
    obtain ⟨k0, r0⟩ := e
    have hnd2 : k0 ∉ keys tl ∧ KeysNodup tl := by
      have h0 := hnd
      unfold KeysNodup keys at h0
      rw [List.map_cons, List.nodup_cons] at h0
      exact h0
    rcases List.mem_cons.mp hm with heq | htl
    · rw [Prod.mk.injEq] at heq
      obtain ⟨rfl, rfl⟩ := heq
      simp [getRow]
    · have hak : a ∈ keys tl := by
        unfold keys
        exact List.mem_map_of_mem Prod.fst htl
      by_cases hea : k0 = a
      · exact absurd (hea ▸ hak) hnd2.1
      · simp only [getRow, hea, if_false]
        exact ih hnd2.2 htl

theorem fmu_select_spec : ∀ {db : Db} {uid c : UserId}, fmu_select db uid = some c →
    ∃ rc, (c, rc) ∈ db ∧ rc.searching = true ∧ rc.partner_id = none ∧ c ≠ uid := by
  intro db
  induction db with
  | nil => intro uid c h; simp [fmu_select] at h
  | cons e tl ih =>
    intro uid c h
    obtain ⟨k0, r0⟩ := e
    by_cases hcond : r0.searching = true ∧ r0.partner_id = none ∧ k0 ≠ uid
    · rw [fmu_select, if_pos hcond] at h
      obtain rfl : k0 = c := by simpa using h
      exact ⟨r0, List.mem_cons_self _ _, hcond.1, hcond.2.1, hcond.2.2⟩
    · rw [fmu_select, if_neg hcond] at h
      obtain ⟨rc, hmem, hprops⟩ := ih h
      exact ⟨rc, List.mem_cons_of_mem _ hmem, hprops⟩

theorem getRow_append_of_some {db : Db} {j : UserId} {r : Row}
    (h : getRow db j = some r) (l : Db) : getRow (db ++ l) j = some r := by
  induction db with
  | nil => simp [getRow] at h
  | cons e tl ih =>
    by_cases hej : e.1 = j
    · simp [getRow, hej] at h ⊢
      exact h
    · simp [getRow, hej] at h ⊢
      exact ih h

theorem getRow_append_of_none {db : Db} {j : UserId}
    (h : getRow db j = none) (l : Db) : getRow (db ++ l) j = getRow l j := by
  induction db with
  | nil => simp [getRow]
  | cons e tl ih =>
    by_cases hej : e.1 = j
    · simp [getRow, hej] at h
    · simp [getRow, hej] at h ⊢
      exact ih h

theorem insertOrIgnore_of_some {db : Db} {uid : UserId} {r : Row}
    (h : getRow db uid = some r) : insertOrIgnore db uid = db := by
  simp [insertOrIgnore, h]

theorem getRow_insertOrIgnore_self (db : Db) (uid : UserId) :
    getRow (insertOrIgnore db uid) uid = some ((getRow db uid).getD freshRow) := by
  cases h : getRow db uid with
  | some r => simp [insertOrIgnore, h]
  | none =>
    simp only [insertOrIgnore, h, Option.isSome_none, Bool.false_eq_true, if_false]
    rw [getRow_append_of_none h]
    simp [getRow]

theorem getRow_insertOrIgnore_other {db : Db} {uid j : UserId} (hne : j ≠ uid) :
    getRow (insertOrIgnore db uid) j = getRow db j := by
  cases h : getRow db uid with
  | some r => simp [insertOrIgnore, h]
  | none =>
    simp only [insertOrIgnore, h, Option.isSome_none, Bool.false_eq_true, if_false]
    cases hj : getRow db j with
    | some rj => rw [getRow_append_of_some hj]
    | none =>
      rw [getRow_append_of_none hj]
      have huj : ¬ uid = j := fun hh => hne hh.symm
      simp [getRow, huj]

theorem updateRow_absent : ∀ {db : Db} {uid : UserId} {f : Row → Row},
    getRow db uid = none → updateRow db uid f = db := by
  intro db
  induction db with
  | nil => intro uid f _; rfl
  | cons e tl ih =>
    intro uid f h
    by_cases hek : e.1 = uid
    · simp [getRow, hek] at h
    · simp [getRow, hek] at h
      simp [updateRow, hek, ih h]

theorem updateRow_updateRow (db : Db) (k : UserId) (f g : Row → Row) :
    updateRow (updateRow db k f) k g = updateRow db k (fun r => g (f r)) := by
  induction db with
  | nil => rfl
  | cons e tl ih =>
    by_cases hek : e.1 = k <;> simp [updateRow, hek, ih]

theorem rowOk_iff (db : Db) (a : UserId) (ra : Row) :
    rowOk db a ra = true ↔
      ∀ b, ra.partner_id = some b → b ≠ AI_PARTNER_ID → a ≠ b →
        ra.searching = false ∧
        ∃ rb, getRow db b = some rb ∧ rb.partner_id = some a ∧ rb.searching = false := by
  cases hpb : ra.partner_id with
  | none => simp [rowOk, hpb]
  | some b =>
    by_cases hAI : b = AI_PARTNER_ID
    · simp [rowOk, hpb, hAI]
    · by_cases hab : a = b
      · simp [rowOk, hpb, hAI, hab]
      · have hba : ¬ b = a := fun h => hab h.symm
        cases hrb : getRow db b with
        | none =>
          simp [rowOk, hpb, hAI, hab, hba, hrb]
        | some rb =>
          simp [rowOk, hpb, hAI, hab, hba, hrb, Bool.and_eq_true, beq_iff_eq, and_assoc]

theorem pairInv_spec {db : Db} (hpi : PairInv db) {a : UserId} {ra : Row} {b : UserId}
    (hget : getRow db a = some ra) (hpb : ra.partner_id = some b)
    (hAI : b ≠ AI_PARTNER_ID) (hab : a ≠ b) :
    ra.searching = false ∧
    ∃ rb, getRow db b = some rb ∧ rb.partner_id = some a ∧ rb.searching = false :=
  (rowOk_iff db a ra).mp (hpi (a, ra) (getRow_mem hget)) b hpb hAI hab

theorem validKeys_getRow {db : Db} (hvk : ValidKeys db) {a : UserId} {r : Row}
    (h : getRow db a = some r) : 0 < a :=
  hvk (a, r) (getRow_mem h)

/-! Lemmas about preservation of the store invariant. -/

theorem keysNodup_updateRow {db : Db} (h : KeysNodup db) (k : UserId) (f : Row → Row) :
    KeysNodup (updateRow db k f) := by
  unfold KeysNodup
  rw [keys_updateRow]
  exact h

theorem validKeys_updateRow {db : Db} (h : ValidKeys db) (k : UserId) (f : Row → Row) :
    ValidKeys (updateRow db k f) := by
  intro e he
  obtain ⟨e0, he0, heq⟩ := mem_updateRow he
  subst heq
  by_cases hk : e0.1 = k
  · rw [if_pos hk]
    exact h e0 he0
  · rw [if_neg hk]
    exact h e0 he0

theorem storeInv_clear2 {db : Db} (h : StoreInv db) (u v : UserId)
    (hnp : ∀ e ∈ db, e.1 ≠ u → e.1 ≠ v →
      e.2.partner_id ≠ some u ∧ e.2.partner_id ≠ some v) :
    StoreInv (updateRow (updateRow db u (fun _ => freshRow)) v (fun _ => freshRow)) := by
  obtain ⟨hnd, hvk, hpi⟩ := h
  refine ⟨keysNodup_updateRow (keysNodup_updateRow hnd u _) v _,
    validKeys_updateRow (validKeys_updateRow hvk u _) v _, ?_⟩
  intro e he
  rw [rowOk_iff]
  intro b hpb hbAI hab
  obtain ⟨e1, he1, heq1⟩ := mem_updateRow he
  obtain ⟨e0, he0, heq0⟩ := mem_updateRow he1
  by_cases h1v : e1.1 = v
  · rw [if_pos h1v] at heq1
    rw [heq1] at hpb
    simp [freshRow] at hpb
  · rw [if_neg h1v] at heq1
    by_cases h0u : e0.1 = u
    · rw [if_pos h0u] at heq0
      rw [heq1, heq0] at hpb
      simp [freshRow] at hpb
    · rw [if_neg h0u] at heq0
      have heqe : e = e0 := heq1.trans heq0
      rw [heq0] at h1v
      rw [heqe] at hpb hab ⊢
      obtain ⟨hbu, hbv⟩ := hnp e0 he0 h0u h1v
      have hbneu : b ≠ u := fun hh => hbu (hh ▸ hpb)
      have hbnev : b ≠ v := fun hh => hbv (hh ▸ hpb)
      obtain ⟨hsearch, rb, hgrb, hrbp, hrbs⟩ :=
        pairInv_spec hpi (mem_getRow hnd he0) hpb hbAI hab
      refine ⟨hsearch, rb, ?_, hrbp, hrbs⟩
      rw [getRow_updateRow, if_neg hbnev, getRow_updateRow, if_neg hbneu]
      exact hgrb

theorem noPointer_clear2 {db : Db} (u v : UserId)
    (hnp : ∀ e ∈ db, e.1 ≠ u → e.1 ≠ v → e.2.partner_id ≠ some u) :
    NoPointer (updateRow (updateRow db u (fun _ => freshRow)) v (fun _ => freshRow)) u := by
  intro e he
  obtain ⟨e1, he1, heq1⟩ := mem_updateRow he
  obtain ⟨e0, he0, heq0⟩ := mem_updateRow he1
  by_cases h1v : e1.1 = v
  · rw [if_pos h1v] at heq1
    rw [heq1]
    simp [freshRow]
  · rw [if_neg h1v] at heq1
    by_cases h0u : e0.1 = u
    · rw [if_pos h0u] at heq0
      rw [heq1, heq0]
      simp [freshRow]
    · rw [if_neg h0u] at heq0
      rw [heq0] at h1v
      rw [heq1.trans heq0]
      exact hnp e0 he0 h0u h1v

theorem storeInv_clear1 {db : Db} (h : StoreInv db) (u : UserId)
    (hnp : ∀ e ∈ db, e.1 ≠ u → e.2.partner_id ≠ some u) :
    StoreInv (updateRow db u (fun _ => freshRow)) := by
  have h2 := storeInv_clear2 h u u (fun e he h1 _ => ⟨hnp e he h1, hnp e he h1⟩)
  rw [updateRow_updateRow] at h2
  exact h2

theorem noPointer_clear1 {db : Db} (u : UserId)
    (hnp : ∀ e ∈ db, e.1 ≠ u → e.2.partner_id ≠ some u) :
    NoPointer (updateRow db u (fun _ => freshRow)) u := by
  have h2 := @noPointer_clear2 db u u (fun e he h1 _ => hnp e he h1)
  rw [updateRow_updateRow] at h2
  exact h2

theorem partner_none_clear2 {db : Db} (u v : UserId) :
    ∀ r2, getRow (updateRow (updateRow db u (fun _ => freshRow)) v (fun _ => freshRow)) u =
      some r2 → r2.partner_id = none := by
  intro r2 h2
  rw [getRow_updateRow] at h2
  by_cases huv : u = v
  · rw [if_pos huv, getRow_updateRow, if_pos rfl] at h2
    cases hg : getRow db u with
    | none => rw [hg] at h2; simp at h2
    | some r =>
      rw [hg] at h2
      simp at h2
      rw [← h2]
      rfl
  · rw [if_neg huv, getRow_updateRow, if_pos rfl] at h2
    cases hg : getRow db u with
    | none => rw [hg] at h2; simp at h2
    | some r =>
      rw [hg] at h2
      simp at h2
      rw [← h2]
      rfl

theorem partner_none_clear1 {db : Db} (u : UserId) :
    ∀ r2, getRow (updateRow db u (fun _ => freshRow)) u = some r2 → r2.partner_id = none := by
  intro r2 h2
  have h3 := @partner_none_clear2 db u u r2
  rw [updateRow_updateRow] at h3
  exact h3 h2

theorem storeInv_init {db : Db} (h : StoreInv db) : StoreInv (init_db db) := by
  obtain ⟨hnd, hvk, hpi⟩ := h
  refine ⟨?_, ?_, ?_⟩
  · unfold KeysNodup keys init_db at *
    rw [List.map_map]
    exact hnd
  · intro e he
    obtain ⟨e0, he0, heq⟩ := List.mem_map.mp he
    rw [← heq]
    exact hvk e0 he0
  · intro e he
    rw [rowOk_iff]
    intro b hpb hbAI hab
    obtain ⟨e0, he0, heq⟩ := List.mem_map.mp he
    rw [← heq] at hpb
    simp [freshRow] at hpb

theorem disconnect_user_storeInv {db : Db} (h : StoreInv db) {uid : UserId} (hu : 0 < uid)
    (ss : Sessions) (nf : Bool) :
    StoreInv (disconnect_user db ss uid nf).db ∧
    NoPointer (disconnect_user db ss uid nf).db uid ∧
    (∀ r, getRow (disconnect_user db ss uid nf).db uid = some r → r.partner_id = none) := by
  obtain ⟨hnd, hvk, hpi⟩ := h
  have hAIu : uid ≠ AI_PARTNER_ID := fun hh => by
    rw [hh] at hu
    exact absurd hu (by decide)
  cases hg : getRow db uid with
  | none =>
    have hres : (disconnect_user db ss uid nf).db = db := by
      unfold disconnect_user
      rw [hg]
      simp [updateRow_absent hg]
    rw [hres]
    have hnok : uid ∉ keys db := getRow_eq_none_iff.mp hg
    have hnp : NoPointer db uid := by
      intro e he hpb
      have hne : e.1 ≠ uid := fun hh => hnok (hh ▸ List.mem_map_of_mem Prod.fst he)
      obtain ⟨_, rb, hgrb, _, _⟩ := pairInv_spec hpi (mem_getRow hnd he) hpb hAIu hne
      rw [hg] at hgrb
      exact Option.noConfusion hgrb
    refine ⟨⟨hnd, hvk, hpi⟩, hnp, ?_⟩
    intro r hr
    rw [hg] at hr
    exact Option.noConfusion hr
  | some ru =>
    have hpoint : ∀ e ∈ db, e.1 ≠ uid → e.2.partner_id = some uid →
        ru.partner_id = some e.1 := by
      intro e he hne hpb
      obtain ⟨_, rb, hgrb, hrbp, _⟩ := pairInv_spec hpi (mem_getRow hnd he) hpb hAIu hne
      rw [hg] at hgrb
      injection hgrb with hh
      rw [← hh] at hrbp
      exact hrbp
    cases hpu : ru.partner_id with
    | none =>
      have hres : (disconnect_user db ss uid nf).db = updateRow db uid (fun _ => freshRow) := by
        unfold disconnect_user
        rw [hg]
        simp [hpu]
      have hnp0 : ∀ e ∈ db, e.1 ≠ uid → e.2.partner_id ≠ some uid := by
        intro e he hne hpb
        have hp := hpoint e he hne hpb
        rw [hpu] at hp
        exact Option.noConfusion hp
      rw [hres]
      exact ⟨storeInv_clear1 ⟨hnd, hvk, hpi⟩ uid hnp0, noPointer_clear1 uid hnp0,
        partner_none_clear1 uid⟩
    | some pid =>
      by_cases hAIp : pid = AI_PARTNER_ID
      · have hres : (disconnect_user db ss uid nf).db =
            updateRow db uid (fun _ => freshRow) := by
          unfold disconnect_user
          rw [hg]
          simp [hpu, hAIp]
        have hnp0 : ∀ e ∈ db, e.1 ≠ uid → e.2.partner_id ≠ some uid := by
          intro e he hne hpb
          have hp := hpoint e he hne hpb
          rw [hpu] at hp
          injection hp with hh
          have hpos := hvk e he
          rw [← hh, hAIp] at hpos
          exact absurd hpos (by decide)
        rw [hres]
        exact ⟨storeInv_clear1 ⟨hnd, hvk, hpi⟩ uid hnp0, noPointer_clear1 uid hnp0,
          partner_none_clear1 uid⟩
      · by_cases hp0 : pid = 0
        · have hres : (disconnect_user db ss uid nf).db =
              updateRow db uid (fun _ => freshRow) := by
            unfold disconnect_user
            rw [hg]
            simp [hpu, hAIp, hp0, AI_PARTNER_ID]
          have hnp0 : ∀ e ∈ db, e.1 ≠ uid → e.2.partner_id ≠ some uid := by
            intro e he hne hpb
            have hp := hpoint e he hne hpb
            rw [hpu] at hp
            injection hp with hh
            have hpos := hvk e he
            rw [← hh, hp0] at hpos
            exact absurd hpos (by decide)
          rw [hres]
          exact ⟨storeInv_clear1 ⟨hnd, hvk, hpi⟩ uid hnp0, noPointer_clear1 uid hnp0,
            partner_none_clear1 uid⟩
        · have hres : (disconnect_user db ss uid nf).db =
              updateRow (updateRow db uid (fun _ => freshRow)) pid (fun _ => freshRow) := by
            unfold disconnect_user
            rw [hg]
            simp [hpu, hAIp, hp0]
          have hnp2 : ∀ e ∈ db, e.1 ≠ uid → e.1 ≠ pid →
              e.2.partner_id ≠ some uid ∧ e.2.partner_id ≠ some pid := by
            intro e he hneu hnep
            constructor
            · intro hpb
              have hp := hpoint e he hneu hpb
              rw [hpu] at hp
              injection hp with hh
              exact hnep hh.symm
            · intro hpb
              by_cases hup : uid = pid
              · rw [← hup] at hpb
                have hp := hpoint e he hneu hpb
                rw [hpu] at hp
                injection hp with hh
                exact hnep hh.symm
              · obtain ⟨_, rp, hgrp, hrpp, _⟩ :=
                  pairInv_spec hpi (mem_getRow hnd he) hpb hAIp hnep
                obtain ⟨_, rp2, hgrp2, hrpp2, _⟩ := pairInv_spec hpi hg hpu hAIp hup
                rw [hgrp2] at hgrp
                injection hgrp with hh
                rw [hh, hrpp] at hrpp2
                injection hrpp2 with hh2
                exact hneu hh2
          rw [hres]
          exact ⟨storeInv_clear2 ⟨hnd, hvk, hpi⟩ uid pid hnp2,
            noPointer_clear2 uid pid (fun e he h1 h2 => (hnp2 e he h1 h2).1),
            partner_none_clear2 uid pid⟩

theorem storeInv_set_searching {db : Db} (h : StoreInv db) {uid : UserId} (hu : 0 < uid)
    (hself : ∀ r, getRow db uid = some r → r.partner_id = none)
    (hnp : NoPointer db uid) :
    StoreInv (set_user_searching db uid true) ∧
    getRow (set_user_searching db uid true) uid = some ⟨none, true⟩ ∧
    NoPointer (set_user_searching db uid true) uid := by
  obtain ⟨hnd, hvk, hpi⟩ := h
  have hins : KeysNodup (insertOrIgnore db uid) ∧ ValidKeys (insertOrIgnore db uid) ∧
      PairInv (insertOrIgnore db uid) ∧ NoPointer (insertOrIgnore db uid) uid ∧
      (∀ r, getRow (insertOrIgnore db uid) uid = some r → r.partner_id = none) := by
    cases hg : getRow db uid with
    | some r =>
      rw [insertOrIgnore_of_some hg]
      exact ⟨hnd, hvk, hpi, hnp, hself⟩
    | none =>
      have hnok : uid ∉ keys db := getRow_eq_none_iff.mp hg
      have happ : insertOrIgnore db uid = db ++ [(uid, freshRow)] := by
        simp [insertOrIgnore, hg]
      rw [happ]
      refine ⟨?_, ?_, ?_, ?_, ?_⟩
      · unfold KeysNodup keys
        rw [List.map_append, List.nodup_append]
        refine ⟨hnd, List.nodup_singleton _, ?_⟩
        intro x hx hx2
        simp at hx2
        rw [hx2] at hx
        exact hnok hx
      · intro e he
        rcases List.mem_append.mp he with h1 | h1
        · exact hvk e h1
        · rw [List.mem_singleton] at h1
          rw [h1]
          exact hu
      · intro e he
        rw [rowOk_iff]
        intro b hpb hbAI hab
        rcases List.mem_append.mp he with h1 | h1
        · obtain ⟨hsearch, rb, hgrb, hrbp, hrbs⟩ :=
            pairInv_spec hpi (mem_getRow hnd h1) hpb hbAI hab
          exact ⟨hsearch, rb, getRow_append_of_some hgrb _, hrbp, hrbs⟩
        · rw [List.mem_singleton] at h1
          rw [h1] at hpb
          simp [freshRow] at hpb
      · intro e he
        rcases List.mem_append.mp he with h1 | h1
        · exact hnp e h1
        · rw [List.mem_singleton] at h1
          rw [h1]
          simp [freshRow]
      · intro r hr
        rw [getRow_append_of_none hg] at hr
        simp [getRow] at hr
        rw [← hr]
        rfl
  obtain ⟨hnd1, hvk1, hpi1, hnp1, hself1⟩ := hins
  have hgr1 := getRow_insertOrIgnore_self db uid
  have hpr1 := hself1 _ hgr1
  unfold set_user_searching
  refine ⟨⟨keysNodup_updateRow hnd1 _ _, validKeys_updateRow hvk1 _ _, ?_⟩, ?_, ?_⟩
  · intro e he
    rw [rowOk_iff]
    intro b hpb hbAI hab
    obtain ⟨e0, he0, heq0⟩ := mem_updateRow he
    by_cases h0 : e0.1 = uid
    · rw [if_pos h0] at heq0
      have he0p : e0.2.partner_id = none := by
        have hge0 : getRow (insertOrIgnore db uid) e0.1 = some e0.2 := mem_getRow hnd1 he0
        rw [h0, hgr1] at hge0
        injection hge0 with hh
        rw [hh] at hpr1
        exact hpr1
      rw [heq0] at hpb
      simp at hpb
      rw [he0p] at hpb
      exact Option.noConfusion hpb
    · rw [if_neg h0] at heq0
      rw [heq0] at hpb hab ⊢
      have hbu : b ≠ uid := fun hh => hnp1 e0 he0 (hh ▸ hpb)
      obtain ⟨hsearch, rb, hgrb, hrbp, hrbs⟩ :=
        pairInv_spec hpi1 (mem_getRow hnd1 he0) hpb hbAI hab
      refine ⟨hsearch, rb, ?_, hrbp, hrbs⟩
      rw [getRow_updateRow, if_neg hbu]
      exact hgrb
  · rw [getRow_updateRow, if_pos rfl, hgr1]
    simp [hpr1]
  · intro e he
    obtain ⟨e0, he0, heq0⟩ := mem_updateRow he
    by_cases h0 : e0.1 = uid
    · rw [if_pos h0] at heq0
      rw [heq0]
      exact hnp1 e0 he0
    · rw [if_neg h0] at heq0
      rw [heq0]
      exact hnp1 e0 he0

theorem storeInv_match_ai {db : Db} (h : StoreInv db) {uid : UserId} (hu : 0 < uid)
    {ru : Row} (hg : getRow db uid = some ru) (hs : ru.searching = true) :
    StoreInv (updateRow db uid (fun _ => ⟨some AI_PARTNER_ID, false⟩)) := by
  obtain ⟨hnd, hvk, hpi⟩ := h
  refine ⟨keysNodup_updateRow hnd _ _, validKeys_updateRow hvk _ _, ?_⟩
  intro e he
  rw [rowOk_iff]
  intro b hpb hbAI hab
  obtain ⟨e0, he0, heq0⟩ := mem_updateRow he
  by_cases h0 : e0.1 = uid
  · rw [if_pos h0] at heq0
    rw [heq0] at hpb
    simp at hpb
    exact absurd hpb.symm hbAI
  · rw [if_neg h0] at heq0
    rw [heq0] at hpb hab ⊢
    have hbu : b ≠ uid := by
      intro hh
      subst hh
      obtain ⟨_, rb, hgrb, _, hrbs⟩ :=
        pairInv_spec hpi (mem_getRow hnd he0) hpb hbAI hab
      rw [hg] at hgrb
      injection hgrb with hh2
      rw [← hh2] at hrbs
      rw [hs] at hrbs
      exact Bool.noConfusion hrbs
    obtain ⟨hsearch, rb, hgrb, hrbp, hrbs⟩ :=
      pairInv_spec hpi (mem_getRow hnd he0) hpb hbAI hab
    refine ⟨hsearch, rb, ?_, hrbp, hrbs⟩
    rw [getRow_updateRow, if_neg hbu]
    exact hgrb

theorem storeInv_search_fire {db : Db} (h : StoreInv db) {uid : UserId} (hu : 0 < uid)
    (ss : Sessions) :
    StoreInv (search_task_fire db ss uid).1 := by
  unfold search_task_fire
  cases hg : getRow db uid with
  | none => exact h
  | some r =>
    cases hs : r.searching with
    | false =>
      simp only [hs, Bool.false_eq_true, if_false]
      exact h
    | true =>
      simp only [hs, if_true]
      exact storeInv_match_ai h hu hg hs

theorem storeInv_find_match {db : Db} (h : StoreInv db) {uid : UserId} (hu : 0 < uid)
    (hg : getRow db uid = some ⟨none, true⟩) (hnp : NoPointer db uid) :
    StoreInv (find_and_match_users db uid).2 := by
  obtain ⟨hnd, hvk, hpi⟩ := h
  unfold find_and_match_users
  cases hc : fmu_select db uid with
  | none => exact ⟨hnd, hvk, hpi⟩
  | some c =>
    obtain ⟨rc, hmemc, hcs, hcp, hcu⟩ := fmu_select_spec hc
    have hgc : getRow db c = some rc := mem_getRow hnd hmemc
    have hc0 : 0 < c := hvk (c, rc) hmemc
    have hcAI : c ≠ AI_PARTNER_ID := fun hh => by
      rw [hh] at hc0
      exact absurd hc0 (by decide)
    have hnpc : NoPointer db c := by
      intro e he hpb
      by_cases hec : e.1 = c
      · have hge : getRow db e.1 = some e.2 := mem_getRow hnd he
        rw [hec, hgc] at hge
        injection hge with hh
        rw [hh] at hcp
        rw [hcp] at hpb
        exact Option.noConfusion hpb
      · obtain ⟨_, rb, hgrb, hrbp, _⟩ :=
          pairInv_spec hpi (mem_getRow hnd he) hpb hcAI hec
        rw [hgc] at hgrb
        injection hgrb with hh
        rw [← hh] at hrbp
        rw [hcp] at hrbp
        exact Option.noConfusion hrbp
    show StoreInv (fmu_commit db uid c)
    unfold fmu_commit
    refine ⟨keysNodup_updateRow (keysNodup_updateRow hnd _ _) _ _,
      validKeys_updateRow (validKeys_updateRow hvk _ _) _ _, ?_⟩
    intro e he
    rw [rowOk_iff]
    intro b hpb hbAI hab
    obtain ⟨e1, he1, heq1⟩ := mem_updateRow he
    obtain ⟨e0, he0, heq0⟩ := mem_updateRow he1
    have huc : uid ≠ c := fun hh => hcu hh.symm
    by_cases h1c : e1.1 = c
    · rw [if_pos h1c] at heq1
      rw [heq1] at hpb hab ⊢
      have hbu : b = uid := by
        simp at hpb
        exact hpb.symm
      subst hbu
      refine ⟨rfl, ⟨some c, false⟩, ?_, ?_, rfl⟩
      · rw [getRow_updateRow, if_neg huc, getRow_updateRow, if_pos rfl, hg]
        rfl
      · simp [h1c]
    · rw [if_neg h1c] at heq1
      by_cases h0u : e0.1 = uid
      · rw [if_pos h0u] at heq0
        have heqe : e = (e0.1, ⟨some c, false⟩) := heq1.trans heq0
        rw [heqe] at hpb hab ⊢
        have hbc : b = c := by
          simp at hpb
          exact hpb.symm
        subst hbc
        refine ⟨rfl, ⟨some uid, false⟩, ?_, ?_, rfl⟩
        · rw [getRow_updateRow, if_pos rfl, getRow_updateRow, if_neg hcu, hgc]
          rfl
        · simp [h0u]
      · rw [if_neg h0u] at heq0
        have heqe : e = e0 := heq1.trans heq0
        rw [heq0] at h1c
        rw [heqe] at hpb hab ⊢
        have hbu : b ≠ uid := fun hh => hnp e0 he0 (hh ▸ hpb)
        have hbc : b ≠ c := fun hh => hnpc e0 he0 (hh ▸ hpb)
        obtain ⟨hsearch, rb, hgrb, hrbp, hrbs⟩ :=
          pairInv_spec hpi (mem_getRow hnd he0) hpb hbAI hab
        refine ⟨hsearch, rb, ?_, hrbp, hrbs⟩
        rw [getRow_updateRow, if_neg hbc, getRow_updateRow, if_neg hbu]
        exact hgrb

theorem storeInv_inactivity {db : Db} (h : StoreInv db) {uid : UserId} (hu : 0 < uid)
    (ss : Sessions) :
    StoreInv (inactivity_checker db db db ss uid).db := by
  unfold inactivity_checker
  by_cases h1 : is_still_connected_to_ai db uid = true
  · simp only [h1, if_true]
    exact (disconnect_user_storeInv h hu ss false).1
  · simp only [Bool.not_eq_true] at h1
    simp only [h1, Bool.false_eq_true, if_false]
    exact h

/-- C1 counterexample: the claim as stated is false - not every committed
transition of the store preserves the symmetric-pairing invariant.  Start
from the invariant-satisfying state with users 3, 1, 2 all searching
(3 first in rowid order).  Requester 1 commits the pair (1,3); the
resulting state still satisfies the invariant.  Requester 2, whose
candidate SELECT was interleaved before that commit (the handler awaits
between its SELECT and its UPDATEs and each call runs on its own sqlite
connection, so this schedule is program-performable), then commits its
own stale double update.  That commit is a committed transition of the
store, and it takes the invariant-satisfying intermediate state to one
where user 1 points at 3 but 3 points at 2: symmetry is violated at an
observable instant outside any transaction. -/
theorem pairing_invariant_broken_by_stale_commit :
    StoreInv [((3:Int), ⟨none, true⟩), (1, ⟨none, true⟩), (2, ⟨none, true⟩)] ∧
    fmu_select [((3:Int), ⟨none, true⟩), (1, ⟨none, true⟩), (2, ⟨none, true⟩)] 2 = some 3 ∧
    StoreInv (fmu_commit [((3:Int), ⟨none, true⟩), (1, ⟨none, true⟩), (2, ⟨none, true⟩)] 1 3) ∧
    fmu_commit (fmu_commit [((3:Int), ⟨none, true⟩), (1, ⟨none, true⟩), (2, ⟨none, true⟩)]
        1 3) 2 3 =
      [(3, ⟨some 2, false⟩), (1, ⟨some 3, false⟩), (2, ⟨some 3, false⟩)] ∧
    ¬ StoreInv [((3:Int), ⟨some 2, false⟩), (1, ⟨some 3, false⟩), (2, ⟨some 3, false⟩)] ∧
    ¬ PairInv [((3:Int), ⟨some 2, false⟩), (1, ⟨some 3, false⟩), (2, ⟨some 3, false⟩)] :=
  ⟨by decide, rfl, by decide, rfl, by decide, by decide⟩

/-- C1 as amended: in every state satisfying the store invariant,
human-human pairing is symmetric - whenever the row of `a` names a real
partner `b` (not the AI sentinel, not itself), `b`'s row exists, names
`a` back, and both have searching false - and the invariant is preserved
by every committed transition the program performs whose SELECT or
re-check and UPDATEs run uninterleaved against the same state: the
startup reset, a disconnect at any time (any notify flag, any session
map: the stop handler, relay failure, AI failure and the inactivity
teardown all go through it), each commit of the start-handler chain
disconnect-then-mark-searching-then-match, the search-timeout fire
(which re-checks searching before pairing with the AI), and a full
inactivity-checker run.  Each conjunct is the state after one committed
transaction, so along such uninterleaved executions the invariant holds
at every observable instant outside a transaction; a stale
find-and-match commit whose SELECT was interleaved before another
requester's commit is the one committed transition that escapes this
theorem, and the counterexample above shows it indeed breaks the
invariant. -/
theorem pairing_invariant_preserved (db : Db) (sessions : Sessions) (uid : UserId)
    (notify : Bool) (hInv : StoreInv db) (huid : 0 < uid) :
    (∀ a ra b, getRow db a = some ra → ra.partner_id = some b → b ≠ AI_PARTNER_ID → a ≠ b →
      ra.searching = false ∧
      ∃ rb, getRow db b = some rb ∧ rb.partner_id = some a ∧ rb.searching = false) ∧
    StoreInv (init_db db) ∧
    StoreInv (disconnect_user db sessions uid notify).db ∧
    StoreInv (set_user_searching (disconnect_user db sessions uid notify).db uid true) ∧
    StoreInv (find_and_match_users
      (set_user_searching (disconnect_user db sessions uid notify).db uid true) uid).2 ∧
    StoreInv (search_task_fire db sessions uid).1 ∧
    StoreInv (inactivity_checker db db db sessions uid).db := by
  obtain ⟨hd, hnp, hself⟩ := disconnect_user_storeInv hInv huid sessions notify
  obtain ⟨hs2, hg2, hnp2⟩ := storeInv_set_searching hd huid hself hnp
  refine ⟨?_, storeInv_init hInv, hd, hs2, storeInv_find_match hs2 huid hg2 hnp2,
    storeInv_search_fire hInv huid sessions, storeInv_inactivity hInv huid sessions⟩
  intro a ra b hget hpb hbAI hab
  exact pairInv_spec hInv.2.2 hget hpb hbAI hab

theorem pairing_invariant_preserved_witness :
    (∀ a ra b,
      getRow [((1:Int), ⟨some 2, false⟩), (2, ⟨some 1, false⟩), (3, ⟨none, true⟩)] a = some ra →
      ra.partner_id = some b → b ≠ AI_PARTNER_ID → a ≠ b →
      ra.searching = false ∧
      ∃ rb, getRow [((1:Int), ⟨some 2, false⟩), (2, ⟨some 1, false⟩), (3, ⟨none, true⟩)] b =
          some rb ∧ rb.partner_id = some a ∧ rb.searching = false) ∧
    StoreInv (init_db [((1:Int), ⟨some 2, false⟩), (2, ⟨some 1, false⟩), (3, ⟨none, true⟩)]) ∧
    StoreInv (disconnect_user [((1:Int), ⟨some 2, false⟩), (2, ⟨some 1, false⟩),
      (3, ⟨none, true⟩)] [] 1 true).db ∧
    StoreInv (set_user_searching (disconnect_user [((1:Int), ⟨some 2, false⟩),
      (2, ⟨some 1, false⟩), (3, ⟨none, true⟩)] [] 1 true).db 1 true) ∧
    StoreInv (find_and_match_users (set_user_searching (disconnect_user
      [((1:Int), ⟨some 2, false⟩), (2, ⟨some 1, false⟩), (3, ⟨none, true⟩)] [] 1 true).db
      1 true) 1).2 ∧
    StoreInv (search_task_fire [((1:Int), ⟨some 2, false⟩), (2, ⟨some 1, false⟩),
      (3, ⟨none, true⟩)] [] 1).1 ∧
    StoreInv (inactivity_checker [((1:Int), ⟨some 2, false⟩), (2, ⟨some 1, false⟩),
      (3, ⟨none, true⟩)] [((1:Int), ⟨some 2, false⟩), (2, ⟨some 1, false⟩), (3, ⟨none, true⟩)]
      [((1:Int), ⟨some 2, false⟩), (2, ⟨some 1, false⟩), (3, ⟨none, true⟩)] [] 1).db :=
  pairing_invariant_preserved
    [((1:Int), ⟨some 2, false⟩), (2, ⟨some 1, false⟩), (3, ⟨none, true⟩)] [] 1 true
    (by decide) (by decide)

/-- C2: the claim says `tryFormPair` pairs the requester with a waiting
candidate in one transaction and returns the candidate id, or returns
empty without mutation.  On the table with requester 1 searching and
candidate 2 waiting, database.py `find_and_create_match` raises
InterfaceError instead (it binds the whole fetched row tuple as the
`partner_id` parameter, `partner_id = row` instead of `row[0]`),
contradicting its own docstring; bot.py `find_and_match_users` performs
exactly the claimed double update but returns the boolean True, not the
candidate id.  The no-candidate branch does return empty with no
mutation in both. -/
theorem find_and_create_match_binding_bug :
    find_and_create_match [((1:Int), ⟨none, true⟩), (2, ⟨none, true⟩)] 1 =
      Except.error interfaceError ∧
    find_and_match_users [((1:Int), ⟨none, true⟩), (2, ⟨none, true⟩)] 1 =
      (true, [(1, ⟨some 2, false⟩), (2, ⟨some 1, false⟩)]) ∧
    find_and_match_users [((1:Int), ⟨none, true⟩)] 1 =
      (false, [((1:Int), ⟨none, true⟩)]) ∧
    find_and_create_match [((1:Int), ⟨none, true⟩)] 1 =
      Except.ok (none, [((1:Int), ⟨none, true⟩)]) :=
  ⟨rfl, rfl, rfl, rfl⟩

/-- C3: the claim says no waiting user is ever claimed by two different
requesters under interleaved `tryFormPair` calls, and interleavings
preserve the symmetric-pairing invariant.  bot.py awaits between the
candidate SELECT and the UPDATEs, and each call runs on its own sqlite
connection, so the interleaving select(1), select(2), commit(1),
commit(2) is possible.  With users 1, 2, 3 all searching (3 first in
table order), both requesters select candidate 3; after both commits
user 3 is claimed by both (1 and 2 each hold partner 3), the final state
has 1 pointing at 3 while 3 points at 2, and the pairing invariant is
violated: with N = 3 searchers no valid symmetric pair remains instead
of exactly one. -/
theorem interleaved_match_double_claims :
    fmu_select [((3:Int), ⟨none, true⟩), (1, ⟨none, true⟩), (2, ⟨none, true⟩)] 1 = some 3 ∧
    fmu_select [((3:Int), ⟨none, true⟩), (1, ⟨none, true⟩), (2, ⟨none, true⟩)] 2 = some 3 ∧
    find_and_match_users [((3:Int), ⟨none, true⟩), (1, ⟨none, true⟩), (2, ⟨none, true⟩)] 1 =
      (true, fmu_commit [((3:Int), ⟨none, true⟩), (1, ⟨none, true⟩), (2, ⟨none, true⟩)] 1 3) ∧
    fmu_commit (fmu_commit [((3:Int), ⟨none, true⟩), (1, ⟨none, true⟩), (2, ⟨none, true⟩)] 1 3)
        2 3 =
      [(3, ⟨some 2, false⟩), (1, ⟨some 3, false⟩), (2, ⟨some 3, false⟩)] ∧
    ¬ PairInv [((3:Int), ⟨some 2, false⟩), (1, ⟨some 3, false⟩), (2, ⟨some 3, false⟩)] :=
  ⟨rfl, rfl, rfl, rfl, by decide⟩

/-- C4: the claim says `breakPair` clears the user and any real partner in
one transaction and returns the former partner id (or empty, or the
AUTOMATION sentinel).  database.py `disconnect_pair` raises
InterfaceError for every existing user (the fetched 1-tuple is truthy
even for a NULL partner and is then bound whole as an IN-list
parameter), contradicting its own docstring; bot.py `disconnect_user`
performs exactly the claimed clearing - both rows for a real partner
with the partner notified, session teardown with no sentinel row touched
for the AUTOMATION case, only the own row otherwise - but returns no
value at all. -/
theorem disconnect_pair_binding_bug :
    disconnect_pair [((5:Int), ⟨some 7, false⟩), (7, ⟨some 5, false⟩)] 5 =
      Except.error interfaceError ∧
    disconnect_pair [((5:Int), ⟨none, false⟩)] 5 = Except.error interfaceError ∧
    disconnect_user [((5:Int), ⟨some 7, false⟩), (7, ⟨some 5, false⟩)] [] 5 true =
      ⟨[(5, freshRow), (7, freshRow)], [], some 7⟩ ∧
    disconnect_user [((5:Int), ⟨some (-1), false⟩)] [5] 5 true =
      ⟨[(5, freshRow)], [], none⟩ ∧
    disconnect_user [((5:Int), freshRow)] [] 5 true = ⟨[(5, freshRow)], [], none⟩ :=
  ⟨rfl, rfl, rfl, rfl, rfl⟩

/-- C5 counterexample: the claim says that after `setSearching(id)` the
record has searching true and empty partnerId regardless of the prior
state.  bot.py `set_user_searching` does not touch `partner_id`: run on
user 5 whose record still holds partner 7, the resulting record is
searching with partner 7 still set, so searching does not imply unpaired
right after the call. -/
theorem set_user_searching_keeps_partner :
    getRow (set_user_searching [((5:Int), ⟨some 7, false⟩)] 5 true) 5 = some ⟨some 7, true⟩ ∧
    (getRow (set_user_searching [((5:Int), ⟨some 7, false⟩)] 5 true) 5).bind Row.partner_id ≠
      none :=
  ⟨rfl, by decide⟩

/-- C5 as amended: database.py `set_user_looking` does satisfy the claim -
it upserts and sets looking true with partner_id NULL, whatever the prior
state, and is idempotent.  bot.py `set_user_searching` upserts and sets
only the searching flag, leaving partner_id exactly as it was (empty for
a fresh record), and is likewise idempotent; the searching-implies-
unpaired invariant after it therefore relies on the caller having
disconnected first. -/
theorem set_searching_amended (db : Db) (uid : UserId) :
    getRow (set_user_looking db uid true) uid = some ⟨none, true⟩ ∧
    set_user_looking (set_user_looking db uid true) uid true = set_user_looking db uid true ∧
    getRow (set_user_searching db uid true) uid =
      some ⟨(getRow db uid).bind Row.partner_id, true⟩ ∧
    set_user_searching (set_user_searching db uid true) uid true =
      set_user_searching db uid true := by
  have h3 : getRow (set_user_searching db uid true) uid =
      some ⟨(getRow db uid).bind Row.partner_id, true⟩ := by
    unfold set_user_searching
    rw [getRow_updateRow, if_pos rfl, getRow_insertOrIgnore_self]
    cases h : getRow db uid with
    | some r => simp [insertOrIgnore, h]
    | none => simp [h, freshRow]
  have h1 : getRow (set_user_looking db uid true) uid = some ⟨none, true⟩ := by
    unfold set_user_looking
    rw [getRow_updateRow, if_pos rfl, getRow_insertOrIgnore_self]
    rfl
  refine ⟨h1, ?_, h3, ?_⟩
  · conv_lhs => rw [set_user_looking, insertOrIgnore_of_some h1]
    conv_lhs => rw [set_user_looking, updateRow_updateRow]
    rfl
  · conv_lhs => rw [set_user_searching, insertOrIgnore_of_some h3]
    conv_lhs => rw [set_user_searching, updateRow_updateRow]
    rfl

/-- C6 counterexample: the claim says the inactivity stages fire at
cumulative offsets +60s, +240s and +300s from scheduling time.  The
checker sleeps 60, then 240 more, then 300 more seconds, so the stages
actually fire at cumulative +60s, +300s and +600s; evaluated on an
AI-paired user 7 with a live session, the event offsets are 60, 300 and
600, not 60, 240 and 300. -/
theorem inactivity_offsets_counterexample :
    inactivity_offsets = [60, 300, 600] ∧
    inactivity_offsets ≠ [60, 240, 300] ∧
    (inactivity_checker [((7:Int), ⟨some (-1), false⟩)] [((7:Int), ⟨some (-1), false⟩)]
        [((7:Int), ⟨some (-1), false⟩)] [7] 7).events =
      [(60, InactMsg.nudge1), (300, InactMsg.nudge2), (600, InactMsg.timeoutMsg)] ∧
    ((inactivity_checker [((7:Int), ⟨some (-1), false⟩)] [((7:Int), ⟨some (-1), false⟩)]
        [((7:Int), ⟨some (-1), false⟩)] [7] 7).events.map Prod.fst ≠ [60, 240, 300]) :=
  ⟨rfl, by decide, rfl, by decide⟩

/-- C6 as amended: for an AI-paired user with a live session who sends
nothing for the whole window (so the table is unchanged at each wake-up),
the escalation fires at cumulative offsets +60s, +300s and +600s from
scheduling time, delivering exactly two nudges and then the final message,
after which the user is disconnected: the row is cleared back to IDLE and
the AI session removed. -/
theorem inactivity_run_amended (db : Db) (sessions : Sessions) (uid : UserId) (r : Row)
    (hrow : getRow db uid = some r) (hai : r.partner_id = some AI_PARTNER_ID)
    (hsess : uid ∈ sessions) :
    (inactivity_checker db db db sessions uid).events =
      [(60, InactMsg.nudge1), (300, InactMsg.nudge2), (600, InactMsg.timeoutMsg)] ∧
    getRow (inactivity_checker db db db sessions uid).db uid = some freshRow ∧
    (inactivity_checker db db db sessions uid).sessions = sessions.erase uid ∧
    inactivity_offsets = [60, 300, 600] := by
  have hconn : is_still_connected_to_ai db uid = true := by
    unfold is_still_connected_to_ai
    rw [hrow]
    simp [hai]
  have hdisc : disconnect_user db sessions uid false =
      ⟨updateRow db uid (fun _ => freshRow), sessions.erase uid, none⟩ := by
    unfold disconnect_user
    rw [hrow]
    simp [hai, AI_PARTNER_ID]
  have hrun : inactivity_checker db db db sessions uid =
      ⟨[(60, InactMsg.nudge1), (300, InactMsg.nudge2), (600, InactMsg.timeoutMsg)],
        updateRow db uid (fun _ => freshRow), sessions.erase uid⟩ := by
    unfold inactivity_checker
    rw [hconn]
    simp [hsess, hdisc]
  rw [hrun]
  refine ⟨rfl, ?_, rfl, rfl⟩
  rw [getRow_updateRow, if_pos rfl, hrow]
  rfl

theorem inactivity_run_amended_witness :
    (inactivity_checker [((7:Int), ⟨some (-1), false⟩)] [((7:Int), ⟨some (-1), false⟩)]
        [((7:Int), ⟨some (-1), false⟩)] [(7:Int)] 7).events =
      [(60, InactMsg.nudge1), (300, InactMsg.nudge2), (600, InactMsg.timeoutMsg)] ∧
    getRow (inactivity_checker [((7:Int), ⟨some (-1), false⟩)] [((7:Int), ⟨some (-1), false⟩)]
        [((7:Int), ⟨some (-1), false⟩)] [(7:Int)] 7).db 7 = some freshRow ∧
    (inactivity_checker [((7:Int), ⟨some (-1), false⟩)] [((7:Int), ⟨some (-1), false⟩)]
        [((7:Int), ⟨some (-1), false⟩)] [(7:Int)] 7).sessions = [(7:Int)].erase 7 ∧
    inactivity_offsets = [60, 300, 600] :=
  inactivity_run_amended [((7:Int), ⟨some (-1), false⟩)] [(7:Int)] 7 ⟨some (-1), false⟩
    rfl rfl (by decide)

/-- C7: stale timer fires never mutate state.  The search-timeout body
re-reads `is_searching` and, when the user is no longer searching (or has
no row), changes nothing, creates no session and sends nothing; an
inactivity stage that wakes to find the user no longer AI-paired is a
no-op: stale at the first stage the whole run emits nothing and leaves
table and sessions untouched, and stale at the final stage nothing is
ever written regardless of the earlier stages. -/
theorem stale_timer_fires_noop (db1 db2 db3 : Db) (sessions : Sessions) (uid : UserId) :
    ((getRow db1 uid).map Row.searching ≠ some true →
      search_task_fire db1 sessions uid = (db1, sessions, false)) ∧
    (is_still_connected_to_ai db1 uid = false →
      inactivity_checker db1 db2 db3 sessions uid = ⟨[], db3, sessions⟩) ∧
    (is_still_connected_to_ai db3 uid = false →
      (inactivity_checker db1 db2 db3 sessions uid).db = db3 ∧
      (inactivity_checker db1 db2 db3 sessions uid).sessions = sessions) := by
  refine ⟨?_, ?_, ?_⟩
  · intro h
    unfold search_task_fire
    cases hr : getRow db1 uid with
    | none => rfl
    | some r =>
      rw [hr] at h
      cases hs : r.searching with
      | false => simp [hs]
      | true => exact absurd (by simp [hs]) h
  · intro h
    unfold inactivity_checker
    simp [h]
  · intro h
    unfold inactivity_checker
    by_cases h1 : is_still_connected_to_ai db1 uid <;>
      by_cases h2 : is_still_connected_to_ai db2 uid <;>
        simp [h1, h2, h]

theorem stale_timer_fires_noop_witness :
    search_task_fire [((5:Int), freshRow)] [] 5 = ([((5:Int), freshRow)], [], false) ∧
    inactivity_checker [((5:Int), freshRow)] [((5:Int), freshRow)] [((5:Int), freshRow)] [] 5 =
      ⟨[], [((5:Int), freshRow)], []⟩ ∧
    (inactivity_checker [((5:Int), freshRow)] [((5:Int), freshRow)] [((5:Int), freshRow)]
      [] 5).db = [((5:Int), freshRow)] := by
  have h := stale_timer_fires_noop [((5:Int), freshRow)] [((5:Int), freshRow)]
    [((5:Int), freshRow)] [] 5
  exact ⟨h.1 (by decide), h.2.1 (by decide), (h.2.2 (by decide)).1⟩

/-- C8: with the jitter draw anywhere in the range of
`random.uniform(0, 1.5)`, the computed reply delay is monotone
nondecreasing in the reply length and is capped at 10 seconds. -/
theorem reply_delay_monotone_bounded (m n : Nat) (j : ℚ)
    (hlo : jitter_lo ≤ j) (hhi : j ≤ jitter_hi) :
    (m ≤ n → final_delay m j ≤ final_delay n j) ∧
    final_delay n j ≤ delay_cap ∧ delay_cap = 10 := by
  refine ⟨fun hmn => ?_, min_le_right _ _, rfl⟩
  unfold final_delay dynamic_delay
  apply min_le_min _ le_rfl
  have hc : (m : ℚ) ≤ (n : ℚ) := by exact_mod_cast hmn
  have hd : (0:ℚ) ≤ delay_per_char := by norm_num [delay_per_char]
  have := mul_le_mul_of_nonneg_right hc hd
  linarith

theorem reply_delay_monotone_bounded_witness :
    (1 ≤ 3 → final_delay 1 1 ≤ final_delay 3 1) ∧
    final_delay 3 1 ≤ delay_cap ∧ delay_cap = 10 :=
  reply_delay_monotone_bounded 1 3 1 (by norm_num [jitter_lo]) (by norm_num [jitter_hi])

/-- C9: on every process start bot.py `init_db` runs a blanket UPDATE that
sets partner_id to NULL and the searching flag to 0 on every existing
row, creating or removing none: each known user record becomes exactly
the IDLE `freshRow`, so every pair or search surviving from the previous
run is silently dissolved (the statement sends nothing). -/
theorem init_db_resets_all_rows (db : Db) (uid : UserId) :
    getRow (init_db db) uid = (getRow db uid).map (fun _ => freshRow) := by
  induction db with
  | nil => simp [getRow, init_db]
  | cons e tl ih =>
    by_cases hek : e.1 = uid <;> simp [getRow, init_db, hek] <;>
      simpa [init_db] using ih

/-- C10: an incoming message from a user whose partner_id is the AI
sentinel but who has no entry in `ai_chat_sessions` takes the AI reply
branch (never the error or not-connected paths), and the handler installs
a fresh session before calling the backend, so a missing session alone
never surfaces as an error. -/
theorem missing_session_recovered (db : Db) (sessions : Sessions) (uid : UserId) (r : Row)
    (hrow : getRow db uid = some r) (hai : r.partner_id = some AI_PARTNER_ID)
    (hmiss : uid ∉ sessions) :
    forward_message_route db uid = FwdRoute.aiReply ∧
    ensure_session sessions uid = uid :: sessions ∧
    uid ∈ ensure_session sessions uid := by
  refine ⟨?_, ?_, ?_⟩
  · unfold forward_message_route
    rw [hrow]
    simp [hai, AI_PARTNER_ID]
  · simp [ensure_session, hmiss]
  · simp [ensure_session, hmiss]

theorem missing_session_recovered_witness :
    forward_message_route [((5:Int), ⟨some (-1), false⟩)] 5 = FwdRoute.aiReply ∧
    ensure_session [] 5 = [(5:Int)] ∧ (5:Int) ∈ ensure_session [] 5 :=
  missing_session_recovered [((5:Int), ⟨some (-1), false⟩)] [] 5 ⟨some (-1), false⟩
    rfl rfl (by decide)

end AnonChat
